import Mathlib

set_option linter.unusedVariables false

/-!
Shallow embedding of the bets pallet (`src/lib.rs`).

Conventions of the embedding:

* Machine integers (`u8`, `u32`, `u64`, the `Balance` type) are modelled as
  `Nat`.  The pallet's `Balance` is instantiated at `u128`, so saturating
  arithmetic saturates at `maxBalance = 2^128 - 1`.  All values the pallet
  manipulates stay far below any wrapping boundary except where the source
  explicitly uses saturating operations, which are modelled as such.
* The host-provided `ReservableCurrency` ledger, the randomness source and
  `sp_runtime::Percent` are external collaborators of the repository; they
  are modelled from the specification's description of those capabilities
  (doc comments on each say what is modelled).
* Dispatchable calls become pure functions `BetsState → ... → Except DispatchErr α × BetsState`.
  The second component is the state at the point the call returned: the
  pallet is embedded with the non-transactional dispatch semantics of the
  FRAME version it is written against, so mutations performed before an
  error are kept, matching the specification's remark that the two balance
  movements inside `claim_bet` are not independently atomic in the source.
* Storage maps become functions `index → Option value`, counters become `Nat`.
-/

namespace BetsPallet

/-- An index of a Match (`MatchIndex = u64` in the source). -/
abbrev MatchIndex := Nat

/-- An index of a Bet (`BetIndex = u64` in the source). -/
abbrev BetIndex := Nat

/-- Account identifiers (`AccountId`), abstract in the source. -/
abbrev AccountId := Nat

/-- Balances (`BalanceOf<T>`, instantiated at `u128`). -/
abbrev Balance := Nat

/-- Largest representable balance: the maximum of `u128`. -/
def maxBalance : Balance := 2 ^ 128 - 1

/-- Saturating addition on balances (`saturating_add`). -/
def satAdd (a b : Balance) : Balance := min (a + b) maxBalance

/-- Saturating multiplication on balances (`saturating_mul`). -/
def satMul (a b : Balance) : Balance := min (a * b) maxBalance

/-- Odd tuple `(u32, u8)`: integer part and fractional part (a percentage). -/
abbrev Odd := Nat × Nat

/-- A Match has an initial state (Open) and two final states (Closed, Postponed). -/
inductive MatchStatus where
  | Open
  | Closed
  | Postponed
deriving DecidableEq

/-- The `SingleMatch` storage record. -/
structure SingleMatch where
  owner : AccountId
  id_event : Nat
  status : MatchStatus
  home_score : Nat
  away_score : Nat
  odd_homewin : Odd
  odd_awaywin : Odd
  odd_draw : Odd
  odd_under : Odd
  odd_over : Odd
deriving DecidableEq

/-- Result predictions for a bet. -/
inductive Prediction where
  | Homewin
  | Awaywin
  | Draw
  | Under
  | Over
deriving DecidableEq

/-- Status of a bet: Open initially, Lost/Won after settlement. -/
inductive BetStatus where
  | Open
  | Lost
  | Won
deriving DecidableEq

/-- The `Bet` storage record. -/
structure Bet where
  owner : AccountId
  id_match : MatchIndex
  prediction : Prediction
  odd : Odd
  amount : Balance
  status : BetStatus
deriving DecidableEq

/-- The pallet's error enum (`Error<T>` in the source). -/
inductive BetsError where
  | MatchNotExists
  | SameMatchOwner
  | OddFracPartOutOfBound
  | OddIntPartOutOfBound
  | MatchClosed
  | MatchOpen
  | MatchAccountInsufficientBalance
  | BetAccountInsufficientBalance
  | BetNotExists
  | BetClosed
  | PayoffError
deriving DecidableEq

/-- A dispatch error: either one of the pallet's own errors, or an error
propagated with `?` from the external ledger backend (`T::Currency`). -/
inductive DispatchErr where
  | module (e : BetsError)
  | ledger
deriving DecidableEq

/-- An account's balance record: free and reserved part.  Modelled from the
spec: the account ledger backend holds each account's free and reserved
balance. -/
structure Account where
  free : Balance
  reserved : Balance
deriving DecidableEq

/-- The account table of the ledger backend. -/
abbrev Accounts := AccountId → Account

/-- Pointwise update of the account table. -/
def setAccount (accs : Accounts) (who : AccountId) (acc : Account) : Accounts :=
  fun a => if a = who then acc else accs a

/-- Modelled from the spec: `can_reserve` of the ledger backend — the account
has sufficient free balance for the requested reservation. -/
def canReserve (accs : Accounts) (who : AccountId) (v : Balance) : Bool :=
  decide (v ≤ (accs who).free)

/-- Modelled from the spec: `reserve` of the ledger backend — earmark `v` of
`who`'s free balance, moving it to the reserved balance; fails when the free
balance is insufficient. -/
def reserve (accs : Accounts) (who : AccountId) (v : Balance) : Option Accounts :=
  if v ≤ (accs who).free then
    some (setAccount accs who ⟨(accs who).free - v, (accs who).reserved + v⟩)
  else none

/-- Modelled from the spec: `unreserve` of the ledger backend — release up to
`v` of `who`'s reserved balance back into the free balance; never fails (any
shortfall is simply not moved). -/
def unreserve (accs : Accounts) (who : AccountId) (v : Balance) : Accounts :=
  setAccount accs who
    ⟨(accs who).free + min v (accs who).reserved,
     (accs who).reserved - min v (accs who).reserved⟩

/-- Modelled from the spec: `repatriate_reserved` of the ledger backend — move
`v` from `slashed`'s reserved balance directly into `beneficiary`'s free
balance, with a failure result when the reserved balance is insufficient. -/
def repatriateReserved (accs : Accounts) (slashed beneficiary : AccountId) (v : Balance) :
    Option Accounts :=
  if v ≤ (accs slashed).reserved then
    let a1 := setAccount accs slashed ⟨(accs slashed).free, (accs slashed).reserved - v⟩
    some (setAccount a1 beneficiary ⟨(a1 beneficiary).free + v, (a1 beneficiary).reserved⟩)
  else none

/-- Modelled from the spec and the `sp_runtime::Percent` implementation the
source calls: `Percent::from_percent` clamps its argument at 100 parts. -/
def fromPercent (x : Nat) : Nat := min x 100

/-- Modelled from the spec and the `sp_runtime::Percent` implementation the
source calls: `Percent(p) * b` is the overflow-free split computation
`(b / 100) * p + ((b % 100) * p) / 100`, i.e. the fractional contribution
the spec writes as `floor(b * p / 100)`. -/
def percentMul (p : Nat) (b : Nat) : Nat :=
  (b / 100) * p + ((b % 100) * p) / 100

/-- The winnable-amount expression, appearing verbatim in the source both in
`place_bet` (line 294) and in `claim_bet` (line 361):
`(Percent::from_percent(odd.1) * amount).saturating_add(amount.saturating_mul(odd.0 as u32))`.
Recall that in the embedding `odd.1` is the integer part (Rust `odd.0`) and
`odd.2` the fractional part (Rust `odd.1`). -/
def winnable_amount (amount : Balance) (odd : Odd) : Balance :=
  satAdd (percentMul (fromPercent odd.2) amount) (satMul amount odd.1)

/-- The whole pallet state: the two storage maps, the two counters, the
ledger backend's account table, and the randomness source (a pure function
from an encoded `(PalletId, seed)` key — the pallet identity is constant, so
the key is reduced to the `u32` seed). -/
structure BetsState where
  Matches : MatchIndex → Option SingleMatch
  Bets : BetIndex → Option Bet
  matchCount : Nat
  betCount : Nat
  accounts : Accounts
  randomness : Nat → Nat

/-- `generate_random_number`: draw from the randomness source keyed by the
seed and decode the leading `u32` of the resulting hash (modelled as the
source value reduced into the `u32` range). -/
def generate_random_number (r : Nat → Nat) (seed : Nat) : Nat :=
  r seed % 2 ^ 32

/-- `u32::MAX`. -/
def u32Max : Nat := 4294967295

/-- The rejection threshold of the score generator:
`u32::MAX - u32::MAX % max_score` with `max_score = 9`. -/
def scoreThreshold : Nat := u32Max - u32Max % 9

/-- The bias-removal loop of `generate_random_score`: the source's
`for i in 1..max_trials` with `max_trials = 10`, carrying the current draw in
`random_number` and the loop variable in `i`. -/
def score_loop (r : Nat → Nat) (seed_diff : Nat) (random_number : Nat) (i : Nat) : Nat :=
  if h10 : 10 ≤ i then random_number
  else if random_number < scoreThreshold then random_number
  else score_loop r seed_diff (generate_random_number r (seed_diff + i)) (i + 1)
termination_by 10 - i
decreasing_by omega

/-- `generate_random_score`: best-effort bias-corrected draw in `[0, 9)`. -/
def generate_random_score (r : Nat → Nat) (seed_diff : Nat) : Nat :=
  score_loop r seed_diff (generate_random_number r seed_diff) 1 % 9

/-- The odd selected for a prediction from the match's five stored odds
(the `match prediction` expression in `place_bet`). -/
def select_odd (m : SingleMatch) (prediction : Prediction) : Odd :=
  match prediction with
  | Prediction.Homewin => m.odd_homewin
  | Prediction.Awaywin => m.odd_awaywin
  | Prediction.Draw => m.odd_draw
  | Prediction.Over => m.odd_over
  | Prediction.Under => m.odd_under

/-- `create_match`: validate the five odds, then store a new open match under
the next index and bump the counter. -/
def create_match (s : BetsState) (owner : AccountId) (id_event : Nat)
    (odd_homewin odd_awaywin odd_draw odd_under odd_over : Odd) :
    Except DispatchErr Unit × BetsState :=
  if ¬(odd_homewin.2 < 99 ∧ odd_awaywin.2 < 99 ∧ odd_draw.2 < 99 ∧ odd_under.2 < 99 ∧
      odd_over.2 < 99) then
    (Except.error (DispatchErr.module BetsError.OddFracPartOutOfBound), s)
  else if ¬(0 < odd_homewin.1 ∧ 0 < odd_awaywin.1 ∧ 0 < odd_draw.1 ∧ 0 < odd_under.1 ∧
      0 < odd_over.1) then
    (Except.error (DispatchErr.module BetsError.OddIntPartOutOfBound), s)
  else
    let single_match : SingleMatch :=
      { owner := owner, id_event := id_event, status := MatchStatus.Open,
        home_score := 0, away_score := 0,
        odd_homewin := odd_homewin, odd_awaywin := odd_awaywin, odd_draw := odd_draw,
        odd_under := odd_under, odd_over := odd_over }
    let match_index := s.matchCount
    (Except.ok (),
      { s with
        Matches := fun i => if i = match_index then some single_match else s.Matches i,
        matchCount := match_index + 1 })

/-- `place_bet`: validate the match, the caller, the match status and both
parties' balances, then reserve the stake and the exposure and store the bet. -/
def place_bet (s : BetsState) (bet_owner : AccountId) (id_match : MatchIndex)
    (prediction : Prediction) (amount : Balance) :
    Except DispatchErr Unit × BetsState :=
  let bet_index := s.betCount
  match s.Matches id_match with
  | none => (Except.error (DispatchErr.module BetsError.MatchNotExists), s)
  | some selected_match =>
    let match_owner := selected_match.owner
    if bet_owner = match_owner then
      (Except.error (DispatchErr.module BetsError.SameMatchOwner), s)
    else if selected_match.status ≠ MatchStatus.Open then
      (Except.error (DispatchErr.module BetsError.MatchClosed), s)
    else if !canReserve s.accounts bet_owner amount then
      (Except.error (DispatchErr.module BetsError.BetAccountInsufficientBalance), s)
    else
      let odd := select_odd selected_match prediction
      let winnable := winnable_amount amount odd
      if !canReserve s.accounts match_owner winnable then
        (Except.error (DispatchErr.module BetsError.MatchAccountInsufficientBalance), s)
      else
        match reserve s.accounts bet_owner amount with
        | none => (Except.error DispatchErr.ledger, s)
        | some accs1 =>
          match reserve accs1 match_owner winnable with
          | none => (Except.error DispatchErr.ledger, { s with accounts := accs1 })
          | some accs2 =>
            let bet : Bet :=
              { owner := bet_owner, id_match := id_match, prediction := prediction,
                odd := odd, amount := amount, status := BetStatus.Open }
            (Except.ok (),
              { s with
                accounts := accs2,
                Bets := fun i => if i = bet_index then some bet else s.Bets i,
                betCount := bet_index + 1 })

/-- `set_match_result`: close an open match and populate its scores from two
draws of the random score generator (seed diffs 0 and 1). -/
def set_match_result (s : BetsState) (caller : AccountId) (id_match : MatchIndex) :
    Except DispatchErr Unit × BetsState :=
  match s.Matches id_match with
  | none => (Except.error (DispatchErr.module BetsError.MatchNotExists), s)
  | some selected_match =>
    if selected_match.status ≠ MatchStatus.Open then
      (Except.error (DispatchErr.module BetsError.MatchClosed), s)
    else
      let updated : SingleMatch :=
        { selected_match with
          status := MatchStatus.Closed,
          home_score := generate_random_score s.randomness 0,
          away_score := generate_random_score s.randomness 1 }
      (Except.ok (),
        { s with Matches := fun i => if i = id_match then some updated else s.Matches i })

/-- The outcome rule of `claim_bet`: the guarded `match` on the prediction,
with the `_ => Lost` fallthrough expanded per constructor. -/
def bet_outcome (prediction : Prediction) (home_score away_score : Nat) : BetStatus :=
  match prediction with
  | Prediction.Homewin =>
      if home_score > away_score then BetStatus.Won else BetStatus.Lost
  | Prediction.Awaywin =>
      if home_score < away_score then BetStatus.Won else BetStatus.Lost
  | Prediction.Draw =>
      if home_score = away_score then BetStatus.Won else BetStatus.Lost
  | Prediction.Over =>
      if home_score + away_score > 3 then BetStatus.Won else BetStatus.Lost
  | Prediction.Under =>
      if home_score + away_score < 3 then BetStatus.Won else BetStatus.Lost

/-- `claim_bet`: settle an open bet against its closed (or postponed) match,
performing the two fund movements of the Won path or the movement plus
release of the Lost path, then persist the new bet status.  Ledger failures
are propagated with `?`, keeping whatever mutation already happened. -/
def claim_bet (s : BetsState) (caller : AccountId) (id_bet : BetIndex) :
    Except DispatchErr Unit × BetsState :=
  match s.Bets id_bet with
  | none => (Except.error (DispatchErr.module BetsError.BetNotExists), s)
  | some selected_bet =>
    if selected_bet.status ≠ BetStatus.Open then
      (Except.error (DispatchErr.module BetsError.BetClosed), s)
    else
      match s.Matches selected_bet.id_match with
      | none => (Except.error (DispatchErr.module BetsError.MatchNotExists), s)
      | some selected_match =>
        if ¬(selected_match.status = MatchStatus.Closed ∨
             selected_match.status = MatchStatus.Postponed) then
          (Except.error (DispatchErr.module BetsError.MatchOpen), s)
        else
          let bet_status :=
            bet_outcome selected_bet.prediction selected_match.home_score
              selected_match.away_score
          let winnable := winnable_amount selected_bet.amount selected_bet.odd
          let match_owner := selected_match.owner
          if bet_status = BetStatus.Won then
            match repatriateReserved s.accounts match_owner selected_bet.owner winnable with
            | none => (Except.error DispatchErr.ledger, s)
            | some accs1 =>
              match repatriateReserved accs1 selected_bet.owner match_owner
                  selected_bet.amount with
              | none => (Except.error DispatchErr.ledger, { s with accounts := accs1 })
              | some accs2 =>
                (Except.ok (),
                  { s with
                    accounts := accs2,
                    Bets := fun i =>
                      if i = id_bet then some { selected_bet with status := bet_status }
                      else s.Bets i })
          else
            match repatriateReserved s.accounts selected_bet.owner match_owner
                selected_bet.amount with
            | none => (Except.error DispatchErr.ledger, s)
            | some accs1 =>
              let accs2 := unreserve accs1 match_owner winnable
              (Except.ok (),
                { s with
                  accounts := accs2,
                  Bets := fun i =>
                    if i = id_bet then some { selected_bet with status := bet_status }
                    else s.Bets i })

/-! ### Helper lemmas about the ledger model and the arithmetic -/

theorem setAccount_self (accs : Accounts) (who : AccountId) (acc : Account) :
    setAccount accs who acc who = acc := by
  simp [setAccount]

theorem setAccount_ne (accs : Accounts) (who : AccountId) (acc : Account)
    (a : AccountId) (h : a ≠ who) : setAccount accs who acc a = accs a := by
  simp [setAccount, h]

theorem percentMul_eq (p b : Nat) : percentMul p b = b * p / 100 := by
  unfold percentMul
  have h : b * p = (b % 100) * p + 100 * ((b / 100) * p) := by
    have hb : 100 * (b / 100) + b % 100 = b := Nat.div_add_mod b 100
    calc b * p = (100 * (b / 100) + b % 100) * p := by rw [hb]
    _ = (b % 100) * p + 100 * ((b / 100) * p) := by ring
  rw [h, Nat.add_mul_div_left _ _ (by norm_num : (0 : Nat) < 100)]
  omega

theorem repatriateReserved_eq_some {accs accs' : Accounts} {x y : AccountId} {v : Balance}
    (h : repatriateReserved accs x y v = some accs') :
    v ≤ (accs x).reserved ∧
    accs' = setAccount (setAccount accs x ⟨(accs x).free, (accs x).reserved - v⟩) y
      ⟨(setAccount accs x ⟨(accs x).free, (accs x).reserved - v⟩ y).free + v,
       (setAccount accs x ⟨(accs x).free, (accs x).reserved - v⟩ y).reserved⟩ := by
  unfold repatriateReserved at h
  split_ifs at h with hle
  exact ⟨hle, (Option.some.inj h).symm⟩

theorem repatriateReserved_apply_slashed {accs accs' : Accounts} {x y : AccountId}
    {v : Balance} (hxy : x ≠ y) (h : repatriateReserved accs x y v = some accs') :
    accs' x = ⟨(accs x).free, (accs x).reserved - v⟩ := by
  rw [(repatriateReserved_eq_some h).2]
  rw [setAccount_ne _ _ _ _ hxy, setAccount_self]

theorem repatriateReserved_apply_beneficiary {accs accs' : Accounts} {x y : AccountId}
    {v : Balance} (hxy : x ≠ y) (h : repatriateReserved accs x y v = some accs') :
    accs' y = ⟨(accs y).free + v, (accs y).reserved⟩ := by
  rw [(repatriateReserved_eq_some h).2]
  rw [setAccount_self, setAccount_ne _ _ _ _ (Ne.symm hxy)]

theorem unreserve_apply_self (accs : Accounts) (who : AccountId) (v : Balance) :
    unreserve accs who v who =
      ⟨(accs who).free + min v (accs who).reserved,
       (accs who).reserved - min v (accs who).reserved⟩ := by
  unfold unreserve
  rw [setAccount_self]

theorem unreserve_apply_ne (accs : Accounts) (who : AccountId) (v : Balance)
    (a : AccountId) (h : a ≠ who) : unreserve accs who v a = accs a := by
  unfold unreserve
  rw [setAccount_ne _ _ _ _ h]

/-! ### Claims -/

/-- The empty pallet state: no matches, no bets, zero counters, empty
accounts, zero randomness. -/
def initState : BetsState :=
  ⟨fun _ => none, fun _ => none, 0, 0, fun _ => ⟨0, 0⟩, fun _ => 0⟩

/-- C3: the claim says odd validation accepts any fractional part `< 100`,
but `create_match` checks `odd.1 < 99` (`src/lib.rs:235`), so the legal
fractional part 99 is rejected with `OddFracPartOutOfBound`; this theorem
evaluates `create_match` at the failing input `(1, 99)` for all five odds
(where every fractional part is `< 100` and every integer part is `> 0`)
and at the boundary input `(1, 0)`, which is accepted as the claim states.
The code's own doc comment (`must be into <0...99> range`) and the spec's
`< 100` bound agree that 99 should be accepted, so the strict `< 99`
comparison is a slip in the code. -/
theorem create_match_rejects_fraction_99 :
    ((99 : Nat) < 100 ∧ (0 : Nat) < 1) ∧
    (create_match initState 0 7 (1, 99) (1, 99) (1, 99) (1, 99) (1, 99)).1 =
      Except.error (DispatchErr.module BetsError.OddFracPartOutOfBound) ∧
    (create_match initState 0 7 (1, 0) (1, 0) (1, 0) (1, 0) (1, 0)).1 =
      Except.ok () ∧
    (create_match initState 0 7 (0, 0) (0, 0) (0, 0) (0, 0) (0, 0)).1 =
      Except.error (DispatchErr.module BetsError.OddIntPartOutOfBound) :=
  ⟨⟨by norm_num, by norm_num⟩, rfl, rfl, rfl⟩

/-- C4: for every amount and every validated odd `(integer_part, fraction_percent)`
(the fractional part of a stored odd is `< 99`), the winnable amount used by
both `place_bet` (line 294) and `claim_bet` (line 361) — the shared
expression `winnable_amount` — equals
`floor(amount * fraction_percent / 100) + amount * integer_part`, where the
multiplication by the integer part and the final addition saturate at the
balance type's maximum. -/
theorem winnable_amount_formula :
    ∀ (amount : Balance) (integer_part fraction_percent : Nat),
      fraction_percent < 99 →
      winnable_amount amount (integer_part, fraction_percent) =
        min (amount * fraction_percent / 100 + min (amount * integer_part) maxBalance)
          maxBalance := by
  intro a i f hf
  unfold winnable_amount satAdd satMul fromPercent
  rw [percentMul_eq, Nat.min_eq_left (by omega : f ≤ 100)]

/-- Witness for C4 at a concrete input: `winnable_amount 250 (2, 50) = 625`. -/
theorem winnable_amount_formula_witness :
    (50 : Nat) < 99 ∧
    winnable_amount 250 (2, 50) =
      min (250 * 50 / 100 + min (250 * 2) maxBalance) maxBalance :=
  ⟨by norm_num, winnable_amount_formula 250 2 50 (by norm_num)⟩

/-- C5: for every prediction and every score pair the outcome rule of
`claim_bet` yields `Won` exactly when the prediction's condition holds
(Homewin: home > away; Awaywin: home < away; Draw: home = away;
Over: home + away > 3; Under: home + away < 3), and the only other
possible outcome is `Lost`. -/
theorem bet_outcome_total_spec :
    ∀ (p : Prediction) (home away : Nat),
      (bet_outcome p home away = BetStatus.Won ↔
        (match p with
         | Prediction.Homewin => home > away
         | Prediction.Awaywin => home < away
         | Prediction.Draw => home = away
         | Prediction.Over => home + away > 3
         | Prediction.Under => home + away < 3)) ∧
      (bet_outcome p home away = BetStatus.Won ∨
        bet_outcome p home away = BetStatus.Lost) := by
  intro p home away
  cases p <;> simp only [bet_outcome] <;> split_ifs <;> simp_all

/-- C9: for every amount and every odd whose integer part is at least 1,
the winnable amount computed at placement is at least the amount (the
payout multiplier is at least 1x), including in the saturated regime. -/
theorem winnable_amount_ge_amount :
    ∀ (amount : Balance) (odd : Odd), 1 ≤ odd.1 → amount ≤ maxBalance →
      amount ≤ winnable_amount amount odd := by
  intro a o h1 hm
  unfold winnable_amount satAdd satMul
  have h2 : a ≤ a * o.1 := by
    calc a = a * 1 := (Nat.mul_one a).symm
    _ ≤ a * o.1 := Nat.mul_le_mul_left a h1
  have h3 : a ≤ min (a * o.1) maxBalance := Nat.le_min.mpr ⟨h2, hm⟩
  exact Nat.le_min.mpr
    ⟨le_trans h3 (Nat.le_add_left _ _), hm⟩

/-- Witness for C9 at a concrete input: `5 ≤ winnable_amount 5 (1, 0)`. -/
theorem winnable_amount_ge_amount_witness :
    1 ≤ (1, 0).1 ∧ (5 : Balance) ≤ maxBalance ∧ 5 ≤ winnable_amount 5 (1, 0) :=
  ⟨by norm_num, by norm_num [maxBalance],
   winnable_amount_ge_amount 5 (1, 0) (by norm_num) (by norm_num [maxBalance])⟩

/-- C10: settlement and match closing are caller-independent — `claim_bet`
and `set_match_result` bind their signed caller but never use it, so two
calls from different accounts on the same state produce identical results
and state effects. -/
theorem claim_and_close_caller_independent :
    ∀ (s : BetsState) (c1 c2 : AccountId) (id_bet : BetIndex) (id_match : MatchIndex),
      claim_bet s c1 id_bet = claim_bet s c2 id_bet ∧
      set_match_result s c1 id_match = set_match_result s c2 id_match := by
  intro s c1 c2 ib im
  exact ⟨rfl, rfl⟩

theorem score_loop_of_lt (r : Nat → Nat) (d rn i : Nat) (h : rn < scoreThreshold) :
    score_loop r d rn i = rn := by
  unfold score_loop
  by_cases h10 : 10 ≤ i
  · simp [h10]
  · simp [h10, h]

theorem score_loop_stop (r : Nat → Nat) (d rn i : Nat) (h : 10 ≤ i) :
    score_loop r d rn i = rn := by
  unfold score_loop
  simp [h]

theorem score_loop_biased :
    ∀ (n : Nat) (r : Nat → Nat) (d i rn : Nat),
      i + n = 10 → 1 ≤ i → i ≤ 9 → scoreThreshold ≤ rn →
      ∃ j, i ≤ j ∧ j ≤ 9 ∧
        score_loop r d rn i = generate_random_number r (d + j) ∧
        (∀ k, i ≤ k → k < j → scoreThreshold ≤ generate_random_number r (d + k)) ∧
        (j < 9 → generate_random_number r (d + j) < scoreThreshold) := by
  intro n
  induction n with
  | zero => intro r d i rn h1 h2 h3 h4; omega
  | succ m ih =>
    intro r d i rn h1 h2 h3 h4
    have hi10 : ¬ 10 ≤ i := by omega
    have hrn : ¬ rn < scoreThreshold := by omega
    have hstep : score_loop r d rn i =
        score_loop r d (generate_random_number r (d + i)) (i + 1) := by
      conv_lhs => unfold score_loop
      simp [hi10, hrn]
    rw [hstep]
    by_cases hlt : generate_random_number r (d + i) < scoreThreshold
    · refine ⟨i, le_refl i, h3, ?_, ?_, ?_⟩
      · rw [score_loop_of_lt _ _ _ _ hlt]
      · intro k hk1 hk2; omega
      · intro _; exact hlt
    · by_cases hi9 : i = 9
      · subst hi9
        refine ⟨9, le_refl 9, le_refl 9, ?_, ?_, ?_⟩
        · rw [score_loop_stop _ _ _ _ (by omega)]
        · intro k hk1 hk2; omega
        · intro h9; omega
      · obtain ⟨j, hj1, hj2, hj3, hj4, hj5⟩ :=
          ih r d (i + 1) (generate_random_number r (d + i)) (by omega) (by omega)
            (by omega) (Nat.le_of_not_lt hlt)
        refine ⟨j, by omega, hj2, hj3, ?_, hj5⟩
        intro k hk1 hk2
        by_cases hk : k = i
        · subst hk; exact Nat.le_of_not_lt hlt
        · exact hj4 k (by omega) hk2

/-- C8: for every seed difference, `generate_random_score` returns a value
below 9; the result is the reduction modulo 9 of the draw at key
`seed_diff + j`, where `j` is the first index (starting from the initial
draw at `seed_diff` itself) whose draw lies below the rejection threshold
`u32::MAX - u32::MAX % 9`; all earlier draws were in the biased range and
were rejected; `j ≤ 9`, so at most 10 draws are ever made, and when every
draw up to the tenth is biased (`j = 9`) the last draw is accepted anyway
and reduced modulo 9 rather than failing. -/
theorem generate_random_score_spec :
    ∀ (r : Nat → Nat) (seed_diff : Nat),
      generate_random_score r seed_diff < 9 ∧
      ∃ j, j ≤ 9 ∧
        generate_random_score r seed_diff =
          generate_random_number r (seed_diff + j) % 9 ∧
        (∀ k, k < j → scoreThreshold ≤ generate_random_number r (seed_diff + k)) ∧
        (j < 9 → generate_random_number r (seed_diff + j) < scoreThreshold) := by
  intro r d
  constructor
  · exact Nat.mod_lt _ (by omega)
  · by_cases h0 : generate_random_number r d < scoreThreshold
    · refine ⟨0, by omega, ?_, ?_, ?_⟩
      · unfold generate_random_score
        rw [score_loop_of_lt _ _ _ _ h0, Nat.add_zero]
      · intro k hk; omega
      · intro _; simpa using h0
    · obtain ⟨j, hj1, hj2, hj3, hj4, hj5⟩ :=
        score_loop_biased 9 r d 1 (generate_random_number r d) (by omega) (by omega)
          (by omega) (Nat.le_of_not_lt h0)
      refine ⟨j, hj2, ?_, ?_, hj5⟩
      · unfold generate_random_score
        rw [hj3]
      · intro k hk
        by_cases hk0 : k = 0
        · subst hk0; simpa using Nat.le_of_not_lt h0
        · exact hj4 k (by omega) hk

/-- The match record written by a successful `set_match_result`: status
Closed, scores drawn from the random score generator with seed diffs 0
(home) and 1 (away). -/
def closed_match_record (s : BetsState) (m : SingleMatch) : SingleMatch :=
  { m with
    status := MatchStatus.Closed,
    home_score := generate_random_score s.randomness 0,
    away_score := generate_random_score s.randomness 1 }

/-- The state after a successful `set_match_result` on match `id_match`. -/
def close_match_state (s : BetsState) (id_match : MatchIndex) (m : SingleMatch) :
    BetsState :=
  { s with
    Matches := fun i => if i = id_match then some (closed_match_record s m)
      else s.Matches i }

/-- C7: `set_match_result` fails with `MatchNotExists` when the match is
missing and with the already-closed error (`Error::MatchClosed`, the spec's
`MatchAlreadyClosed`) when its status is not Open, both without touching the
state; on an open match it succeeds, setting the status to Closed and
writing both randomly drawn scores, and a second call on the resulting state
fails with the already-closed error and leaves the stored scores and status
untouched — scores are populated exactly once. -/
theorem set_match_result_spec :
    ∀ (s : BetsState) (c1 c2 : AccountId) (id_match : MatchIndex),
      (s.Matches id_match = none →
        set_match_result s c1 id_match =
          (Except.error (DispatchErr.module BetsError.MatchNotExists), s)) ∧
      (∀ m, s.Matches id_match = some m → m.status ≠ MatchStatus.Open →
        set_match_result s c1 id_match =
          (Except.error (DispatchErr.module BetsError.MatchClosed), s)) ∧
      (∀ m, s.Matches id_match = some m → m.status = MatchStatus.Open →
        set_match_result s c1 id_match =
          (Except.ok (), close_match_state s id_match m) ∧
        (close_match_state s id_match m).Matches id_match =
          some (closed_match_record s m) ∧
        set_match_result (close_match_state s id_match m) c2 id_match =
          (Except.error (DispatchErr.module BetsError.MatchClosed),
           close_match_state s id_match m)) := by
  intro s c1 c2 id
  refine ⟨?_, ?_, ?_⟩
  · intro hnone
    unfold set_match_result
    rw [hnone]
  · intro m hsome hst
    unfold set_match_result
    rw [hsome]
    simp [hst]
  · intro m hsome hst
    refine ⟨?_, ?_, ?_⟩
    · unfold set_match_result
      rw [hsome]
      simp [hst, close_match_state, closed_match_record]
    · simp [close_match_state]
    · have hlook : (close_match_state s id m).Matches id =
          some (closed_match_record s m) := by simp [close_match_state]
      unfold set_match_result
      rw [hlook]
      simp [closed_match_record]

/-- A concrete one-match state for the C7 witness: match 0 is open. -/
def openMatchState : BetsState :=
  { Matches := fun i =>
      if i = 0 then
        some ⟨0, 7, MatchStatus.Open, 0, 0, (2, 0), (3, 0), (3, 0), (2, 50), (2, 50)⟩
      else none,
    Bets := fun _ => none,
    matchCount := 1, betCount := 0,
    accounts := fun _ => ⟨1000, 0⟩,
    randomness := fun v => v }

/-- Witness for C7: closing open match 0 of `openMatchState` succeeds and a
second call fails with the already-closed error without changing the state. -/
theorem set_match_result_spec_witness :
    openMatchState.Matches 0 =
      some ⟨0, 7, MatchStatus.Open, 0, 0, (2, 0), (3, 0), (3, 0), (2, 50), (2, 50)⟩ ∧
    (set_match_result openMatchState 4 0 =
      (Except.ok (), close_match_state openMatchState 0
        ⟨0, 7, MatchStatus.Open, 0, 0, (2, 0), (3, 0), (3, 0), (2, 50), (2, 50)⟩) ∧
     (close_match_state openMatchState 0
        ⟨0, 7, MatchStatus.Open, 0, 0, (2, 0), (3, 0), (3, 0), (2, 50), (2, 50)⟩).Matches 0 =
      some (closed_match_record openMatchState
        ⟨0, 7, MatchStatus.Open, 0, 0, (2, 0), (3, 0), (3, 0), (2, 50), (2, 50)⟩) ∧
     set_match_result (close_match_state openMatchState 0
        ⟨0, 7, MatchStatus.Open, 0, 0, (2, 0), (3, 0), (3, 0), (2, 50), (2, 50)⟩) 9 0 =
      (Except.error (DispatchErr.module BetsError.MatchClosed),
       close_match_state openMatchState 0
        ⟨0, 7, MatchStatus.Open, 0, 0, (2, 0), (3, 0), (3, 0), (2, 50), (2, 50)⟩)) :=
  ⟨rfl,
   (set_match_result_spec openMatchState 4 9 0).2.2
     ⟨0, 7, MatchStatus.Open, 0, 0, (2, 0), (3, 0), (3, 0), (2, 50), (2, 50)⟩ rfl rfl⟩

/-- The ordered precondition cascade of `place_bet` as the specification
states it: match exists, caller differs from the match owner, match is
open, the bettor can reserve the amount, the bookmaker can reserve the
winnable exposure; the value is the first failing check's error, or `none`
when every check passes. -/
def place_bet_first_failure (s : BetsState) (bet_owner : AccountId)
    (id_match : MatchIndex) (prediction : Prediction) (amount : Balance) :
    Option BetsError :=
  match s.Matches id_match with
  | none => some BetsError.MatchNotExists
  | some m =>
    if bet_owner = m.owner then some BetsError.SameMatchOwner
    else if m.status ≠ MatchStatus.Open then some BetsError.MatchClosed
    else if !canReserve s.accounts bet_owner amount then
      some BetsError.BetAccountInsufficientBalance
    else if !canReserve s.accounts m.owner
        (winnable_amount amount (select_odd m prediction)) then
      some BetsError.MatchAccountInsufficientBalance
    else none

/-- C6: `place_bet` evaluates its preconditions in the order match exists
(`MatchNotExists`), caller differs from the owner (`SameMatchOwner`), match
open (`MatchClosed`), bettor can reserve the amount
(`BetAccountInsufficientBalance`), bookmaker can reserve the winnable
exposure (`MatchAccountInsufficientBalance`); the first failing check
determines the returned error, and a failing call returns the input state
unchanged — match table, bet table, counters and balances included. -/
theorem place_bet_check_order :
    ∀ (s : BetsState) (bet_owner : AccountId) (id_match : MatchIndex)
      (prediction : Prediction) (amount : Balance),
      (place_bet s bet_owner id_match prediction amount).1 =
        (match place_bet_first_failure s bet_owner id_match prediction amount with
         | some e => Except.error (DispatchErr.module e)
         | none => Except.ok ()) ∧
      ((place_bet_first_failure s bet_owner id_match prediction amount).isSome →
        (place_bet s bet_owner id_match prediction amount).2 = s) := by
  intro s c id p a
  cases hm : s.Matches id with
  | none => simp [place_bet, place_bet_first_failure, hm]
  | some m =>
    by_cases h1 : c = m.owner
    · simp [place_bet, place_bet_first_failure, hm, h1]
    · by_cases h2 : m.status = MatchStatus.Open
      · by_cases h3 : canReserve s.accounts c a
        · by_cases h4 : canReserve s.accounts m.owner (winnable_amount a (select_odd m p))
          · have h3' : a ≤ (s.accounts c).free := by
              simpa [canReserve] using h3
            have h4' : winnable_amount a (select_odd m p) ≤ (s.accounts m.owner).free := by
              simpa [canReserve] using h4
            have hres1 : reserve s.accounts c a =
                some (setAccount s.accounts c
                  ⟨(s.accounts c).free - a, (s.accounts c).reserved + a⟩) := by
              simp [reserve, h3']
            have hacc : setAccount s.accounts c
                ⟨(s.accounts c).free - a, (s.accounts c).reserved + a⟩ m.owner =
                s.accounts m.owner :=
              setAccount_ne _ _ _ _ (fun h => h1 h.symm)
            have hres2 : reserve (setAccount s.accounts c
                ⟨(s.accounts c).free - a, (s.accounts c).reserved + a⟩) m.owner
                (winnable_amount a (select_odd m p)) ≠ none := by
              simp [reserve, hacc, h4']
            simp only [place_bet, place_bet_first_failure, hm, h1, h2, h3, h4]
            rw [hres1]
            simp only [if_neg h1]
            cases hr2 : reserve (setAccount s.accounts c
                ⟨(s.accounts c).free - a, (s.accounts c).reserved + a⟩) m.owner
                (winnable_amount a (select_odd m p)) with
            | none => exact absurd hr2 hres2
            | some accs2 => simp
          · simp [place_bet, place_bet_first_failure, hm, h1, h2, h3, h4]
        · simp [place_bet, place_bet_first_failure, hm, h1, h2, h3]
      · simp [place_bet, place_bet_first_failure, hm, h1, h2]

/-- Witness for C6: on the concrete open-match state, a self-bet by the
match owner fails with `SameMatchOwner` and leaves the state unchanged. -/
theorem place_bet_check_order_witness :
    (place_bet_first_failure openMatchState 0 0 Prediction.Homewin 10).isSome ∧
    (place_bet openMatchState 0 0 Prediction.Homewin 10).1 =
      Except.error (DispatchErr.module BetsError.SameMatchOwner) ∧
    (place_bet openMatchState 0 0 Prediction.Homewin 10).2 = openMatchState := by
  have h := place_bet_check_order openMatchState 0 0 Prediction.Homewin 10
  exact ⟨rfl, h.1, h.2 rfl⟩

theorem bet_outcome_won_or_lost (p : Prediction) (h a : Nat) :
    bet_outcome p h a = BetStatus.Won ∨ bet_outcome p h a = BetStatus.Lost := by
  cases p <;> simp only [bet_outcome] <;> split_ifs <;> simp

/-- C2: when `claim_bet` succeeds on a bet whose owner differs from the
match owner and whose match account holds at least the winnable exposure in
reserve: on a Won outcome the winnable amount moves from the bookmaker's
reserved balance into the bettor's free balance and the bet's amount moves
from the bettor's reserved balance into the bookmaker's free balance; on a
Lost outcome the bet's amount moves from the bettor's reserved balance into
the bookmaker's free balance and the winnable amount is unreserved (moved
from the bookmaker's own reserved balance into the bookmaker's own free
balance, not transferred).  The winnable amount is
`winnable_amount bet.amount bet.odd`, recomputed from the bet's snapshotted
odd and amount; the current match odds do not enter the computation. -/
theorem claim_bet_success_fund_movement
    (s : BetsState) (caller : AccountId) (id_bet : BetIndex) (bet : Bet) (m : SingleMatch)
    (hb : s.Bets id_bet = some bet)
    (hmm : s.Matches bet.id_match = some m)
    (hown : bet.owner ≠ m.owner)
    (hres : winnable_amount bet.amount bet.odd ≤ (s.accounts m.owner).reserved)
    (hok : (claim_bet s caller id_bet).1 = Except.ok ()) :
    (bet_outcome bet.prediction m.home_score m.away_score = BetStatus.Won →
      (claim_bet s caller id_bet).2.accounts bet.owner =
        ⟨(s.accounts bet.owner).free + winnable_amount bet.amount bet.odd,
         (s.accounts bet.owner).reserved - bet.amount⟩ ∧
      (claim_bet s caller id_bet).2.accounts m.owner =
        ⟨(s.accounts m.owner).free + bet.amount,
         (s.accounts m.owner).reserved - winnable_amount bet.amount bet.odd⟩) ∧
    (bet_outcome bet.prediction m.home_score m.away_score = BetStatus.Lost →
      (claim_bet s caller id_bet).2.accounts bet.owner =
        ⟨(s.accounts bet.owner).free,
         (s.accounts bet.owner).reserved - bet.amount⟩ ∧
      (claim_bet s caller id_bet).2.accounts m.owner =
        ⟨(s.accounts m.owner).free + bet.amount + winnable_amount bet.amount bet.odd,
         (s.accounts m.owner).reserved - winnable_amount bet.amount bet.odd⟩) := by
  have hstat : bet.status = BetStatus.Open := by
    by_contra hneq
    simp [claim_bet, hb, hneq] at hok
  have hcl : m.status = MatchStatus.Closed ∨ m.status = MatchStatus.Postponed := by
    by_contra hneq
    simp [claim_bet, hb, hstat, hmm, hneq] at hok
  rcases bet_outcome_won_or_lost bet.prediction m.home_score m.away_score with hoc | hoc
  · -- Won path
    cases hr1 : repatriateReserved s.accounts m.owner bet.owner
        (winnable_amount bet.amount bet.odd) with
    | none =>
      exfalso
      rcases hcl with hcl | hcl <;>
        simp [claim_bet, hb, hstat, hmm, hcl, hoc, hr1] at hok
    | some a1 =>
      cases hr2 : repatriateReserved a1 bet.owner m.owner bet.amount with
      | none =>
        exfalso
        rcases hcl with hcl | hcl <;>
          simp [claim_bet, hb, hstat, hmm, hcl, hoc, hr1, hr2] at hok
      | some a2 =>
        have hrun : (claim_bet s caller id_bet).2.accounts = a2 := by
          rcases hcl with hcl | hcl <;>
            simp [claim_bet, hb, hstat, hmm, hcl, hoc, hr1, hr2]
        have ha1b : a1 bet.owner =
            ⟨(s.accounts bet.owner).free + winnable_amount bet.amount bet.odd,
             (s.accounts bet.owner).reserved⟩ :=
          repatriateReserved_apply_beneficiary (Ne.symm hown) hr1
        have ha1m : a1 m.owner =
            ⟨(s.accounts m.owner).free,
             (s.accounts m.owner).reserved - winnable_amount bet.amount bet.odd⟩ :=
          repatriateReserved_apply_slashed (Ne.symm hown) hr1
        have ha2b : a2 bet.owner = ⟨(a1 bet.owner).free, (a1 bet.owner).reserved - bet.amount⟩ :=
          repatriateReserved_apply_slashed hown hr2
        have ha2m : a2 m.owner = ⟨(a1 m.owner).free + bet.amount, (a1 m.owner).reserved⟩ :=
          repatriateReserved_apply_beneficiary hown hr2
        constructor
        · intro _
          rw [hrun, ha2b, ha2m, ha1b, ha1m]
          exact ⟨rfl, rfl⟩
        · intro hlost
          rw [hoc] at hlost
          cases hlost
  · -- Lost path
    cases hr1 : repatriateReserved s.accounts bet.owner m.owner bet.amount with
    | none =>
      exfalso
      rcases hcl with hcl | hcl <;>
        simp [claim_bet, hb, hstat, hmm, hcl, hoc, hr1] at hok
    | some a1 =>
      have hrun : (claim_bet s caller id_bet).2.accounts =
          unreserve a1 m.owner (winnable_amount bet.amount bet.odd) := by
        rcases hcl with hcl | hcl <;>
          simp [claim_bet, hb, hstat, hmm, hcl, hoc, hr1]
      have ha1b : a1 bet.owner =
          ⟨(s.accounts bet.owner).free, (s.accounts bet.owner).reserved - bet.amount⟩ :=
        repatriateReserved_apply_slashed hown hr1
      have ha1m : a1 m.owner =
          ⟨(s.accounts m.owner).free + bet.amount, (s.accounts m.owner).reserved⟩ :=
        repatriateReserved_apply_beneficiary hown hr1
      have hmin : min (winnable_amount bet.amount bet.odd) (a1 m.owner).reserved =
          winnable_amount bet.amount bet.odd := by
        rw [ha1m]
        exact Nat.min_eq_left hres
      constructor
      · intro hwon
        rw [hoc] at hwon
        cases hwon
      · intro _
        constructor
        · rw [hrun, unreserve_apply_ne _ _ _ _ hown, ha1b]
        · rw [hrun, unreserve_apply_self, hmin, ha1m]

/-- A concrete winning bet for the C2 witness: bettor 1 staked 100 on
Homewin at odd (2, 0) against match owner 0. -/
def wonBet : Bet := ⟨1, 0, Prediction.Homewin, (2, 0), 100, BetStatus.Open⟩

/-- A concrete closed match (home 2, away 0) owned by account 0. -/
def wonMatch : SingleMatch :=
  ⟨0, 7, MatchStatus.Closed, 2, 0, (2, 0), (3, 0), (3, 0), (2, 50), (2, 50)⟩

/-- A concrete state in which bet 0 (`wonBet`) on match 0 (`wonMatch`) is
fully collateralized: the bookmaker has 200 reserved, the bettor 100. -/
def wonState : BetsState :=
  { Matches := fun i => if i = 0 then some wonMatch else none,
    Bets := fun i => if i = 0 then some wonBet else none,
    matchCount := 1, betCount := 1,
    accounts := fun a => if a = 0 then ⟨0, 200⟩ else if a = 1 then ⟨0, 100⟩ else ⟨0, 0⟩,
    randomness := fun v => v }

/-- Witness for C2: settling `wonBet` succeeds with outcome Won; the bettor
ends with 200 free (the winnable amount) and 0 reserved, the bookmaker with
100 free (the stake) and 0 reserved. -/
theorem claim_bet_success_fund_movement_witness :
    (claim_bet wonState 9 0).1 = Except.ok () ∧
    (claim_bet wonState 9 0).2.accounts 1 = ⟨200, 0⟩ ∧
    (claim_bet wonState 9 0).2.accounts 0 = ⟨100, 0⟩ := by
  have h := claim_bet_success_fund_movement wonState 9 0 wonBet wonMatch rfl rfl
    (by decide) (by decide) rfl
  have hwon := h.1 rfl
  exact ⟨rfl, hwon.1.trans (by decide), hwon.2.trans (by decide)⟩

/-- C1 (amended): the two fund movements of `claim_bet` are sequential and
not atomic — in the Won path, when the first movement (winnable from the
bookmaker's reserve to the bettor) succeeds and the second (the stake from
the bettor's reserve to the bookmaker) fails, `claim_bet` returns the
ledger backend's propagated error with the first movement still in effect;
moreover no settlement failure is ever surfaced as `PayoffError` — that
variant is declared but unused by `claim_bet`, which surfaces its own
precondition errors or the ledger's error. -/
theorem claim_bet_nonatomic_payoff :
    ∀ (s : BetsState) (caller : AccountId) (id_bet : BetIndex),
      (∀ e, (claim_bet s caller id_bet).1 = Except.error e →
        e ≠ DispatchErr.module BetsError.PayoffError) ∧
      (∀ (bet : Bet) (m : SingleMatch) (a1 : Accounts),
        s.Bets id_bet = some bet →
        bet.status = BetStatus.Open →
        s.Matches bet.id_match = some m →
        (m.status = MatchStatus.Closed ∨ m.status = MatchStatus.Postponed) →
        bet_outcome bet.prediction m.home_score m.away_score = BetStatus.Won →
        repatriateReserved s.accounts m.owner bet.owner
          (winnable_amount bet.amount bet.odd) = some a1 →
        repatriateReserved a1 bet.owner m.owner bet.amount = none →
        claim_bet s caller id_bet =
          (Except.error DispatchErr.ledger, { s with accounts := a1 })) := by
  intro s c b
  constructor
  · intro e he heq
    subst heq
    rcases hb : s.Bets b with _ | bet
    · simp [claim_bet, hb] at he
    · by_cases hst : bet.status = BetStatus.Open
      · rcases hm : s.Matches bet.id_match with _ | m
        · simp [claim_bet, hb, hst, hm] at he
        · by_cases hcl : m.status = MatchStatus.Closed ∨ m.status = MatchStatus.Postponed
          · rcases bet_outcome_won_or_lost bet.prediction m.home_score m.away_score
              with hoc | hoc
            · cases hr1 : repatriateReserved s.accounts m.owner bet.owner
                  (winnable_amount bet.amount bet.odd) with
              | none =>
                rcases hcl with hcl | hcl <;>
                  simp [claim_bet, hb, hst, hm, hcl, hoc, hr1] at he
              | some a1 =>
                cases hr2 : repatriateReserved a1 bet.owner m.owner bet.amount with
                | none =>
                  rcases hcl with hcl | hcl <;>
                    simp [claim_bet, hb, hst, hm, hcl, hoc, hr1, hr2] at he
                | some a2 =>
                  rcases hcl with hcl | hcl <;>
                    simp [claim_bet, hb, hst, hm, hcl, hoc, hr1, hr2] at he
            · cases hr1 : repatriateReserved s.accounts bet.owner m.owner bet.amount with
              | none =>
                rcases hcl with hcl | hcl <;>
                  simp [claim_bet, hb, hst, hm, hcl, hoc, hr1] at he
              | some a1 =>
                rcases hcl with hcl | hcl <;>
                  simp [claim_bet, hb, hst, hm, hcl, hoc, hr1] at he
          · simp [claim_bet, hb, hst, hm, hcl] at he
      · simp [claim_bet, hb, hst] at he
  · intro bet m a1 hb hst hm hcl hoc hr1 hr2
    rcases hcl with hcl | hcl <;>
      simp [claim_bet, hb, hst, hm, hcl, hoc, hr1, hr2]

/-- A state identical to `wonState` except the bettor's stake is not in
reserve (the bettor's account is empty), so the second movement of the Won
path must fail after the first succeeded. -/
def partialState : BetsState :=
  { Matches := fun i => if i = 0 then some wonMatch else none,
    Bets := fun i => if i = 0 then some wonBet else none,
    matchCount := 1, betCount := 1,
    accounts := fun a => if a = 0 then ⟨0, 200⟩ else ⟨0, 0⟩,
    randomness := fun v => v }

/-- The account table after only the first movement of the Won path on
`partialState`: the bookmaker's 200 reserved moved into the bettor's free
balance. -/
def partialA1 : Accounts :=
  setAccount
    (setAccount partialState.accounts 0
      ⟨(partialState.accounts 0).free, (partialState.accounts 0).reserved - 200⟩)
    1
    ⟨(setAccount partialState.accounts 0
        ⟨(partialState.accounts 0).free, (partialState.accounts 0).reserved - 200⟩ 1).free
      + 200,
     (setAccount partialState.accounts 0
        ⟨(partialState.accounts 0).free, (partialState.accounts 0).reserved - 200⟩ 1).reserved⟩

/-- Counterexample for C1 as stated: settling bet 0 of `partialState`
performs exactly one of the two Won-path movements — the bettor's free
balance gains the winnable 200 and the bookmaker's reserve is emptied,
while the stake never reaches the bookmaker (free balance still 0) — and
the failure is surfaced as the ledger backend's error, not as
`PayoffError`. -/
theorem claim_bet_partial_movement_counterexample :
    (claim_bet partialState 9 0).1 = Except.error DispatchErr.ledger ∧
    DispatchErr.ledger ≠ DispatchErr.module BetsError.PayoffError ∧
    partialState.accounts 1 = ⟨0, 0⟩ ∧
    partialState.accounts 0 = ⟨0, 200⟩ ∧
    (claim_bet partialState 9 0).2.accounts 1 = ⟨200, 0⟩ ∧
    (claim_bet partialState 9 0).2.accounts 0 = ⟨0, 0⟩ :=
  ⟨rfl, by decide, rfl, rfl, rfl, rfl⟩

/-- Witness for C1 (amended) on `partialState`: the first movement succeeds
into `partialA1`, the second fails, and `claim_bet` returns the ledger
error together with the partially mutated state. -/
theorem claim_bet_nonatomic_payoff_witness :
    partialState.Bets 0 = some wonBet ∧
    repatriateReserved partialA1 wonBet.owner wonMatch.owner wonBet.amount = none ∧
    claim_bet partialState 9 0 =
      (Except.error DispatchErr.ledger, { partialState with accounts := partialA1 }) :=
  ⟨rfl, rfl,
   (claim_bet_nonatomic_payoff partialState 9 0).2 wonBet wonMatch partialA1 rfl rfl rfl
     (Or.inl rfl) rfl rfl rfl⟩

end BetsPallet
